import Mathlib

set_option maxRecDepth 8000

/-!
Shallow embedding of the raydium-balance-fetcher repository
(src/main.rs and src/balance_fetcher.rs).

The remote RPC service is modelled as a structure of response functions
(`RpcLedger`); every operation of the tool is a pure function of the ledger.
External collaborators (solana-sdk address parsing and program-derived
addresses, the anchor account decoder, the raydium concentrated-liquidity
math library) are modelled from the spec and marked as such in their doc
comments.  Machine integers are `Nat` with an explicit `% 2 ^ 64` where
Rust's `u64` arithmetic can overflow; Rust panics (from `unwrap`) are a
distinct outcome constructor so that "abort" and "returned error" stay
distinguishable.
-/

/-- Modulus of Rust's `u64`. -/
def U64_MOD : Nat := 2 ^ 64

/-- A 32-byte public identifier (solana `Pubkey`), modelled by its byte list. -/
structure Pubkey where
  bytes : List Nat
deriving DecidableEq

/-- Characters of the base-58 alphabet used by textual addresses. -/
def base58Alphabet : List Char :=
  "123456789ABCDEFGHJKLMNPQRSTUVWXYZabcdefghijkmnopqrstuvwxyz".data

/-- Modelled from the spec: `Pubkey::from_str` (external solana-sdk) parses
"the wallet address in its textual form" and fails on a string that is not a
well-formed base-58 address (wrong length or a character outside the
alphabet). -/
def Pubkey.fromStr (s : String) : Option Pubkey :=
  if 32 ≤ s.length ∧ s.length ≤ 44 ∧ s.data.all (fun c => base58Alphabet.contains c) then
    some ⟨s.data.map Char.toNat⟩
  else none

/-- The key a well-formed textual address denotes (used for the compiled-in
constants, whose `from_str` always succeeds). -/
def pubkeyOfStr (s : String) : Pubkey := ⟨s.data.map Char.toNat⟩

/-- The rpc-request error variants of the client library (external
`solana_rpc_client_api::request::RpcError`). -/
inductive RpcError where
  | rpcRequestError : String → RpcError
  | rpcResponseError : Int → String → RpcError
  | parseError : String → RpcError
  | forUser : String → RpcError
deriving DecidableEq

/-- Kinds of client errors (external `solana_client` `ErrorKind`), collapsed
to the variants this program distinguishes: transport (`io`), rpc errors, and
everything else (`custom`). -/
inductive ClientErrorKind where
  | io : String → ClientErrorKind
  | rpcError : RpcError → ClientErrorKind
  | custom : String → ClientErrorKind
deriving DecidableEq

/-- Errors of the concentrated-liquidity math library (external). -/
inductive MathError where
  | tickOutOfRange
  | amountOverflow
deriving DecidableEq

/-- The program-level error type (`anyhow::Error` in the source): either a
client error or a math-library error. -/
inductive AppError where
  | client : ClientErrorKind → AppError
  | math : MathError → AppError
deriving DecidableEq

/-- Rust `Result` with an explicit error type. -/
inductive Res (ε α : Type) where
  | ok : α → Res ε α
  | err : ε → Res ε α
deriving DecidableEq

/-- Outcome of a fallible piece of the program: a value, a returned error, or
a Rust panic (an `unwrap` or explicit panic aborting the process). -/
inductive RRes (α : Type) where
  | ok : α → RRes α
  | err : AppError → RRes α
  | panicked : String → RRes α
deriving DecidableEq

/-- The `token_amount` object of a parsed token account: a string-encoded raw
amount and a decimals field. -/
structure UiTokenAmountField where
  amount : String
  decimals : Nat
deriving DecidableEq

inductive UiAccountState where
  | initialized
  | frozen
  | uninitialized
deriving DecidableEq

/-- A parsed token account (`UiTokenAccount`): string-encoded mint, state,
token amount and optional close authority (the fields this program reads). -/
structure UiTokenAccount where
  mint : String
  state : UiAccountState
  tokenAmount : UiTokenAmountField
  closeAuthority : Option String
deriving DecidableEq

/-- Result of the JSON decode attempt (`serde_json::from_value`) on the
parsed payload of an entry: either a token account, or anything else (a mint,
a multisig, or JSON that does not decode as `TokenAccountType::Account`). -/
inductive ParsedJson where
  | tokenAccount : UiTokenAccount → ParsedJson
  | notTokenAccount : String → ParsedJson
deriving DecidableEq

/-- The `data` field of an account in the enumeration response: JSON-parsed
(with the decoder's program tag) or raw binary. -/
inductive UiAccountData where
  | json : String → ParsedJson → UiAccountData
  | binary : List Nat → UiAccountData
deriving DecidableEq

/-- One keyed account of the `get_token_accounts_by_owner` response (the
textual account key and its `account.data`). -/
structure RpcKeyedAccount where
  pubkey : String
  data : UiAccountData
deriving DecidableEq

/-- The decoded raydium position record (the fields this program reads). -/
structure PersonalPositionState where
  pool_id : Pubkey
  tick_lower_index : Int
  tick_upper_index : Int
  liquidity : Nat
deriving DecidableEq

/-- Raw account data returned by `get_multiple_accounts`, as seen through the
anchor decoder: bytes that decode to a position record, or bytes that do
not. -/
inductive AccountBlob where
  | position : PersonalPositionState → AccountBlob
  | undecodable : List Nat → AccountBlob
deriving DecidableEq

structure Account where
  data : AccountBlob
deriving DecidableEq

inductive DecodeError where
  | failed
deriving DecidableEq

/-- `deserialize_anchor_account::<PersonalPositionState>` of the source;
the anchor binary layout itself is external, modelled from the spec
("decoded from binary", with possible failure). -/
def deserialize_anchor_account (account : Account) :
    Res DecodeError PersonalPositionState :=
  match account.data with
  | .position p => .ok p
  | .undecodable _ => .err .failed

/-- The remote ledger service (external collaborator): the four read-only
queries the tool issues, each able to fail with a client error. -/
structure RpcLedger where
  getBalance : Pubkey → Res ClientErrorKind Nat
  getTokenAccountBalance : Pubkey → Res ClientErrorKind UiTokenAmountField
  getTokenAccountsByOwner : Pubkey → Pubkey → Res ClientErrorKind (List RpcKeyedAccount)
  getMultipleAccounts : List Pubkey → Res ClientErrorKind (List (Option Account))

def WSOL_MINT_ADDRESS : String := "So11111111111111111111111111111111111111112"

def RAYDIUM_V3_PROGRAM : String := "CAMMCzo5YL8w4VFF8KVHrK22GGUsp5VTaW7grrKgrWqK"

def SOL_USDC_1BP_POOL : String := "8sLbNZoA1cfnvMJLPfp98ZLAnFSYCFApfJKMbiXNLwxj"

def WSOL_MINT_KEY : Pubkey := pubkeyOfStr WSOL_MINT_ADDRESS

def RAYDIUM_V3_PROGRAM_KEY : Pubkey := pubkeyOfStr RAYDIUM_V3_PROGRAM

def SOL_USDC_1BP_POOL_KEY : Pubkey := pubkeyOfStr SOL_USDC_1BP_POOL

/-- `spl_token_2022::id()` (external constant). -/
def SPL_TOKEN_2022_ID : Pubkey := pubkeyOfStr "TokenzQdBNbLqP5VEhdkAS6EPFLC1PHnBqCXEpPxuEb"

/-- `spl_token::id()` (external constant, the classic token program). -/
def TOKEN_PROGRAM_ID : Pubkey := pubkeyOfStr "TokenkegQfeZyiNwAJbNbGKPFXCWuBvf9Ss623VQ5DA"

/-- `raydium_amm_v3::states::POSITION_SEED` (external constant). -/
def POSITION_SEED : String := "position"

def positionSeedBytes : List Nat := POSITION_SEED.data.map Char.toNat

/-- Length-prefixed flattening of a seed list (an injective encoding). -/
def encodeSeeds : List (List Nat) → List Nat
  | [] => []
  | s :: rest => s.length :: (s ++ encodeSeeds rest)

/-- Modelled from the spec: `Pubkey::find_program_address` (external
solana-sdk) — "an address computed deterministically from a seed and a
controlling program identifier".  The real scheme hashes; here the
derivation is modelled as a deterministic, collision-free encoding of the
seeds and the program. -/
def find_program_address (seeds : List (List Nat)) (program : Pubkey) : Pubkey :=
  ⟨seeds.length :: (encodeSeeds seeds ++ program.bytes.length :: program.bytes)⟩

def ATA_PROGRAM_KEY : Pubkey := pubkeyOfStr "ATokenGPvbdGVxr1b2hvZbsiqW5xWH25efTNsLJA8knL"

/-- Modelled from the spec: the associated token account, "derived
(deterministically, via a public derivation function) from (wallet address,
mint identifier)" (external `spl_associated_token_account`). -/
def get_associated_token_address (wallet mint : Pubkey) : Pubkey :=
  find_program_address [wallet.bytes, mint.bytes] ATA_PROGRAM_KEY

/-- Numeric value of a digit list. -/
def decimalValue (cs : List Char) : Nat :=
  cs.foldl (fun acc c => acc * 10 + (c.toNat - 48)) 0

/-- `u64::from_str`: a non-empty digit string whose value fits in 64 bits.
(The Rust parser also accepts a redundant leading plus sign, which nothing in
this program produces or depends on.) -/
def parseU64 (s : String) : Option Nat :=
  if s.data ≠ [] ∧ s.data.all Char.isDigit then
    if decimalValue s.data < U64_MOD then some (decimalValue s.data) else none
  else none

def MIN_TICK : Int := -443636

def MAX_TICK : Int := 443636

/-- Modelled from the spec: `tick_math::get_sqrt_price_at_tick` (external
raydium math) — "a deterministic, monotonic function of the integer tick;
domain is a bounded integer range"; a tick outside the range is an error.
The concrete values of the mapping are irrelevant to the verified
properties, so a strictly monotone positive function of the tick stands in
for the exponential one. -/
def get_sqrt_price_at_tick (tick : Int) : Res MathError Nat :=
  if tick < MIN_TICK ∨ MAX_TICK < tick then .err .tickOutOfRange
  else .ok ((tick - MIN_TICK).toNat + 1)

/-- Modelled from the spec: `get_delta_amount_0_unsigned` (external raydium
math) — "amount0 = liquidity · (1/√P_lower − 1/√P_upper)", computed in the
Q64.64 fixed-point representation (the bounds are swapped internally when
given in reverse order), rounded up on request, with an arithmetic overflow
of the u64 result reported as an error. -/
def get_delta_amount_0_unsigned (sqrtPriceA sqrtPriceB liquidity : Nat)
    (roundUp : Bool) : Res MathError Nat :=
  let lo := min sqrtPriceA sqrtPriceB
  let hi := max sqrtPriceA sqrtPriceB
  if lo = 0 then .err .amountOverflow
  else
    let num := liquidity * (hi - lo) * U64_MOD
    let den := lo * hi
    let v := if roundUp then (num + den - 1) / den else num / den
    if v < U64_MOD then .ok v else .err .amountOverflow

/-- Modelled from the spec: `get_delta_amount_1_unsigned` (external raydium
math) — "amount1 = liquidity · (√P_upper − √P_lower)" in Q64.64, rounded up
on request, overflow reported as an error. -/
def get_delta_amount_1_unsigned (sqrtPriceA sqrtPriceB liquidity : Nat)
    (roundUp : Bool) : Res MathError Nat :=
  let lo := min sqrtPriceA sqrtPriceB
  let hi := max sqrtPriceA sqrtPriceB
  let num := liquidity * (hi - lo)
  let v := if roundUp then (num + (U64_MOD - 1)) / U64_MOD else num / U64_MOD
  if v < U64_MOD then .ok v else .err .amountOverflow

structure SPLToken where
  amount : Nat
  decimals : Nat
deriving DecidableEq

/-- The canonical "account not found" rpc response error (modelled from the
spec's error taxonomy: the remote service reports a missing token account as
an rpc response error with this message). -/
def accountNotFoundError : ClientErrorKind :=
  .rpcError (.rpcResponseError (-32602) "could not find account")

/-- Does the error kind match `ErrorKind::RpcError(RpcError::RpcResponseError)`,
the (whole) class of errors `balance_spl_token` suppresses? -/
def isRpcResponseErrorKind : ClientErrorKind → Bool
  | .rpcError (.rpcResponseError _ _) => true
  | _ => false

/-- `BalanceFetcher::balance_sol`. -/
def balance_sol (rpc : RpcLedger) (wallet_address : Pubkey) : RRes Nat :=
  match rpc.getBalance wallet_address with
  | .ok balance => .ok balance
  | .err e => .err (.client e)

/-- `BalanceFetcher::balance_spl_token`: an `RpcResponseError` from the
balance query is mapped to the zero token, any other error propagates, and
the string-encoded amount of a successful response is `unwrap`-parsed. -/
def balance_spl_token (rpc : RpcLedger) (wallet_address token_mint_address : Pubkey) :
    RRes SPLToken :=
  let addr := get_associated_token_address wallet_address token_mint_address
  match rpc.getTokenAccountBalance addr with
  | .err e =>
    match e with
    | .rpcError (.rpcResponseError _ _) => .ok ⟨0, 0⟩
    | _ => .err (.client e)
  | .ok ui_token_amount =>
    match parseU64 ui_token_amount.amount with
    | none => .panicked "invalid u64 amount"
    | some amount => .ok ⟨amount, ui_token_amount.decimals⟩

/-- `BalanceFetcher::balance_wsol`. -/
def balance_wsol (rpc : RpcLedger) (wallet_address : Pubkey) : RRes Nat :=
  match balance_spl_token rpc wallet_address WSOL_MINT_KEY with
  | .ok t => .ok t.amount
  | .err e => .err e
  | .panicked m => .panicked m

/-- `BalanceFetcher::balance_sol_unified` (a u64 addition, hence the
`% 2 ^ 64`). -/
def balance_sol_unified (rpc : RpcLedger) (wallet_address : Pubkey) : RRes Nat :=
  match balance_sol rpc wallet_address with
  | .err e => .err e
  | .panicked m => .panicked m
  | .ok sol_balance =>
    match balance_wsol rpc wallet_address with
    | .err e => .err e
    | .panicked m => .panicked m
    | .ok wsol_balance => .ok ((sol_balance + wsol_balance) % U64_MOD)

structure PositionNftTokenInfo where
  key : Pubkey
  program : Pubkey
  position : Pubkey
  mint : Pubkey
  amount : Nat
  decimals : Nat
deriving DecidableEq

/-- Processing of one keyed account inside
`get_nft_account_and_position_by_owner`: skip (`.ok none`), keep
(`.ok (some info)`), or abort the whole enumeration with a Rust panic on an
unparsable mint / account key / token amount / close authority string. -/
def processTokenAccount (owner tokenProgram raydiumProgram : Pubkey)
    (keyedAccount : RpcKeyedAccount) : RRes (Option PositionNftTokenInfo) :=
  match keyedAccount.data with
  | .binary _ => .ok none
  | .json program parsed =>
    if program = "spl-token" ∨ program = "spl-token-2022" then
      match parsed with
      | .notTokenAccount _ => .ok none
      | .tokenAccount ui_token_account =>
        match Pubkey.fromStr ui_token_account.mint with
        | none => .panicked "Invalid mint"
        | some token =>
          match Pubkey.fromStr keyedAccount.pubkey with
          | none => .panicked "Invalid token account"
          | some token_account =>
            match parseU64 ui_token_account.tokenAmount.amount with
            | none => .panicked "Invalid token amount"
            | some token_amount =>
              match (match ui_token_account.closeAuthority with
                     | none => some owner
                     | some s => Pubkey.fromStr s) with
              | none => .panicked "Invalid close authority"
              | some _ =>
                if ui_token_account.tokenAmount.decimals = 0 ∧ token_amount = 1 then
                  .ok (some ⟨token_account, tokenProgram,
                    find_program_address [positionSeedBytes, token.bytes] raydiumProgram,
                    token, token_amount, ui_token_account.tokenAmount.decimals⟩)
                else .ok none
    else .ok none

/-- The `for keyed_account in all_tokens` loop of
`get_nft_account_and_position_by_owner`, keeping the response order. -/
def enumLoop (owner tokenProgram raydiumProgram : Pubkey) :
    List RpcKeyedAccount → RRes (List PositionNftTokenInfo)
  | [] => .ok []
  | keyedAccount :: rest =>
    match processTokenAccount owner tokenProgram raydiumProgram keyedAccount with
    | .panicked m => .panicked m
    | .err e => .err e
    | .ok none => enumLoop owner tokenProgram raydiumProgram rest
    | .ok (some info) =>
      match enumLoop owner tokenProgram raydiumProgram rest with
      | .ok l => .ok (info :: l)
      | .err e => .err e
      | .panicked m => .panicked m

/-- `BalanceFetcher::get_nft_account_and_position_by_owner`: the response of
`get_token_accounts_by_owner` is `unwrap`-ed (an rpc failure panics), then
each entry is processed in order. -/
def get_nft_account_and_position_by_owner (rpc : RpcLedger)
    (owner tokenProgram raydiumProgram : Pubkey) : RRes (List PositionNftTokenInfo) :=
  match rpc.getTokenAccountsByOwner owner tokenProgram with
  | .err _ => .panicked "called unwrap on an Err value"
  | .ok all_tokens => enumLoop owner tokenProgram raydiumProgram all_tokens

/-- The per-candidate step of the `filter_map` in `raydium_pool_position`:
drop an absent account, drop an account that fails to decode (logged in the
source), keep a record of the target pool. -/
def survivorFilter (pool_id : Pubkey) (p : Option Account) :
    Option PersonalPositionState :=
  match p with
  | none => none
  | some rsp =>
    match deserialize_anchor_account rsp with
    | .err _ => none
    | .ok position => if position.pool_id = pool_id then some position else none

/-- The `filter_map` of `raydium_pool_position`. -/
def survivors (positions : List (Option Account)) (pool_id : Pubkey) :
    List PersonalPositionState :=
  positions.filterMap (survivorFilter pool_id)

/-- The body of the accumulation loop for one position: the two tick-to-price
conversions and the two delta-amount formulas, each `?`-propagated. -/
def deltasOfPosition (position : PersonalPositionState) : Res MathError (Nat × Nat) :=
  match get_sqrt_price_at_tick position.tick_lower_index with
  | .err e => .err e
  | .ok tick_lower_price_x64 =>
    match get_sqrt_price_at_tick position.tick_upper_index with
    | .err e => .err e
    | .ok tick_upper_price_x64 =>
      match get_delta_amount_0_unsigned tick_lower_price_x64 tick_upper_price_x64
          position.liquidity true with
      | .err e => .err e
      | .ok delta_amount0 =>
        match get_delta_amount_1_unsigned tick_upper_price_x64 tick_lower_price_x64
            position.liquidity true with
        | .err e => .err e
        | .ok delta_amount1 => .ok (delta_amount0, delta_amount1)

/-- The `for position in positions` accumulation loop of
`raydium_pool_position`; `amount_0` and `amount_1` are u64 accumulators,
hence the `% 2 ^ 64` on each addition. -/
def valuateLoop : List PersonalPositionState → Nat → Nat → Res MathError (Nat × Nat)
  | [], amount_0, amount_1 => .ok (amount_0, amount_1)
  | position :: rest, amount_0, amount_1 =>
    match deltasOfPosition position with
    | .err e => .err e
    | .ok d =>
      valuateLoop rest ((amount_0 + d.1) % U64_MOD) ((amount_1 + d.2) % U64_MOD)

/-- `BalanceFetcher::raydium_pool_position`. -/
def raydium_pool_position (rpc : RpcLedger) (wallet_address pool_id : Pubkey) :
    RRes (Nat × Nat) :=
  match get_nft_account_and_position_by_owner rpc wallet_address SPL_TOKEN_2022_ID
      RAYDIUM_V3_PROGRAM_KEY with
  | .err e => .err e
  | .panicked m => .panicked m
  | .ok position_infos =>
    match rpc.getMultipleAccounts (position_infos.map (fun i => i.position)) with
    | .err e => .err (.client e)
    | .ok fetched =>
      match valuateLoop (survivors fetched pool_id) 0 0 with
      | .err e => .err (.math e)
      | .ok totals => .ok totals

/-- `BalanceFetcher::position_sol_usdc_1bp` (the `from_str` of the
compiled-in pool constant always succeeds). -/
def position_sol_usdc_1bp (rpc : RpcLedger) (wallet_address : Pubkey) :
    RRes (Nat × Nat) :=
  raydium_pool_position rpc wallet_address SOL_USDC_1BP_POOL_KEY

inductive MainResult where
  | usageExit
  | badAddressExit
  | runtimeErr : AppError → MainResult
  | panicked : String → MainResult
  | success : Nat → Nat → Nat → Nat → MainResult
deriving DecidableEq

/-- Process exit code of each outcome: 1 for the usage / bad-address exits
and for an `Err` returned from `main`, 101 for a Rust panic, 0 on success. -/
def MainResult.exitCode : MainResult → Nat
  | .usageExit => 1
  | .badAddressExit => 1
  | .runtimeErr _ => 1
  | .panicked _ => 101
  | .success _ _ _ _ => 0

/-- `main` of src/main.rs as a function of the argument list and the ledger:
argument-count check, address parse, then the four fetches in order.  (The
printed summary is represented by the four raw numbers; the f64 scaling and
formatting are display-only.) -/
def mainRun (args : List String) (rpc : RpcLedger) : MainResult :=
  if args.length < 2 then .usageExit
  else
    match Pubkey.fromStr (args.getD 1 "") with
    | none => .badAddressExit
    | some addr =>
      match balance_sol rpc addr with
      | .err e => .runtimeErr e
      | .panicked m => .panicked m
      | .ok sol =>
        match balance_wsol rpc addr with
        | .err e => .runtimeErr e
        | .panicked m => .panicked m
        | .ok wsol =>
          match balance_sol_unified rpc addr with
          | .err e => .runtimeErr e
          | .panicked m => .panicked m
          | .ok unified =>
            match position_sol_usdc_1bp rpc addr with
            | .err e => .runtimeErr e
            | .panicked m => .panicked m
            | .ok totals => .success sol wsol unified totals.1

/-- The enumeration filter exactly as claim C6 states it: keep the decoded
token-account entries whose program tag is one of the two known token
programs and whose decimals equal 0 and amount equals 1, and derive the
position address from the fixed seed literal's bytes concatenated with the
mint's bytes, scoped to the exchange program. -/
def enumerationSpecFilter (tokenProgram raydiumProgram : Pubkey)
    (keyedAccount : RpcKeyedAccount) : Option PositionNftTokenInfo :=
  match keyedAccount.data with
  | .json program (.tokenAccount ui_token_account) =>
    if (program = "spl-token" ∨ program = "spl-token-2022")
        ∧ ui_token_account.tokenAmount.decimals = 0
        ∧ parseU64 ui_token_account.tokenAmount.amount = some 1 then
      match Pubkey.fromStr ui_token_account.mint, Pubkey.fromStr keyedAccount.pubkey with
      | some token, some token_account =>
        some ⟨token_account, tokenProgram,
          find_program_address [positionSeedBytes, token.bytes] raydiumProgram,
          token, 1, 0⟩
      | _, _ => none
    else none
  | _ => none

/-- One fetched candidate contributes nothing to the valuation: it is absent,
fails to decode, or records a different pool. -/
def candidateRuledOut (pool_id : Pubkey) (fetched : Option Account) : Bool :=
  match fetched with
  | none => true
  | some rsp =>
    match deserialize_anchor_account rsp with
    | .err _ => true
    | .ok position => if position.pool_id = pool_id then false else true

/-- The per-position delta amounts, defined when every conversion succeeds. -/
def deltaList : List PersonalPositionState → Option (List (Nat × Nat))
  | [] => some []
  | position :: rest =>
    match deltasOfPosition position with
    | .err _ => none
    | .ok d => (deltaList rest).map (fun ds => d :: ds)

/-- The derived position addresses of a successful enumeration (empty when
the enumeration panicked or errored). -/
def positionsOf : RRes (List PositionNftTokenInfo) → List Pubkey
  | .ok infos => infos.map (fun i => i.position)
  | .err _ => []
  | .panicked _ => []

/-! ### Concrete fixtures used by the witnesses and counterexamples -/

/-- A well-formed wallet address (the system program's textual key). -/
def cOwner : Pubkey := pubkeyOfStr "11111111111111111111111111111111"

/-- The well-formed wallet address used by the repository's own tests. -/
def goodAddrStr : String := "53zSj4G935ZY2a5x2UnGAiJXSuXXmGHaLph2zhAUvYpg"

def ioErr : ClientErrorKind := .io "connection refused"

/-- An rpc response error that is not the account-not-found one. -/
def otherResponseError : ClientErrorKind :=
  .rpcError (.rpcResponseError (-32601) "Method not found")

def mintStrA : String := "Amint111111111111111111111111111111"

def mintStrB : String := "Bmint111111111111111111111111111111"

def keyStrA : String := "Akey11111111111111111111111111111111"

def keyStrB : String := "Bkey11111111111111111111111111111111"

/-- A well-formed non-fungible ownership-token entry (decimals 0, amount 1)
under the token-2022 program tag. -/
def mkNftEntry (key mint : String) : RpcKeyedAccount :=
  ⟨key, .json "spl-token-2022" (.tokenAccount ⟨mint, .initialized, ⟨"1", 0⟩, none⟩)⟩

/-- An entry whose account data is raw binary rather than parsed JSON. -/
def binaryEntry : RpcKeyedAccount := ⟨keyStrA, .binary [1, 2, 3]⟩

/-- An entry whose JSON payload does not decode as a token account. -/
def notAccountEntry : RpcKeyedAccount :=
  ⟨keyStrA, .json "spl-token" (.notTokenAccount "mint layout")⟩

/-- An entry whose program tag is neither of the two token programs. -/
def wrongTagEntry : RpcKeyedAccount :=
  ⟨keyStrB, .json "stake" (.tokenAccount ⟨mintStrA, .initialized, ⟨"1", 0⟩, none⟩)⟩

/-- A decoded token-account entry whose mint string does not parse. -/
def badMintEntry : RpcKeyedAccount :=
  ⟨keyStrA, .json "spl-token-2022" (.tokenAccount ⟨"!!!", .initialized, ⟨"1", 0⟩, none⟩)⟩

/-- A position of the target pool whose two delta amounts are `2 ^ 63` and 1
(ticks at the very bottom of the range, liquidity 1). -/
def overflowPosition : PersonalPositionState :=
  ⟨SOL_USDC_1BP_POOL_KEY, -443636, -443635, 1⟩

/-- A ledger on which every query fails with a transport error. -/
def rpcDownLedger : RpcLedger :=
  ⟨fun _ => .err ioErr, fun _ => .err ioErr, fun _ _ => .err ioErr, fun _ => .err ioErr⟩

/-- A ledger whose enumeration returns one entry with an unparsable mint. -/
def badMintLedger : RpcLedger :=
  ⟨fun _ => .err ioErr, fun _ => .err ioErr, fun _ _ => .ok [badMintEntry],
    fun _ => .err ioErr⟩

/-- A ledger whose token-balance query fails with an rpc response error that
is not account-not-found. -/
def c2Ledger : RpcLedger :=
  ⟨fun _ => .err ioErr, fun _ => .err otherResponseError, fun _ _ => .err ioErr,
    fun _ => .err ioErr⟩

/-- A ledger with the largest representable native balance and a wrapped
balance of 1, so that the unified sum overflows u64. -/
def maxSolLedger : RpcLedger :=
  ⟨fun _ => .ok (U64_MOD - 1), fun _ => .ok ⟨"1", 9⟩, fun _ _ => .ok [],
    fun _ => .ok []⟩

/-- A ledger on which the wrapped-token account does not exist (the balance
query answers with the account-not-found response error). -/
def notFoundLedger : RpcLedger :=
  ⟨fun _ => .ok 5, fun _ => .err accountNotFoundError, fun _ _ => .ok [],
    fun _ => .ok []⟩

/-- A ledger on which the wallet holds nothing at all. -/
def emptyLedger : RpcLedger :=
  ⟨fun _ => .ok 0, fun _ => .err accountNotFoundError, fun _ _ => .ok [],
    fun _ => .ok []⟩

/-- A ledger with one ownership token whose derived position account is
absent from the multiple-accounts fetch. -/
def c4Ledger : RpcLedger :=
  ⟨fun _ => .ok 0, fun _ => .err accountNotFoundError,
    fun _ _ => .ok [mkNftEntry keyStrA mintStrA], fun _ => .ok [none]⟩

/-- A ledger with two ownership tokens whose two positions each contribute a
delta of `2 ^ 63` for token 0, so that the u64 total overflows. -/
def overflowLedger : RpcLedger :=
  ⟨fun _ => .ok 0, fun _ => .err accountNotFoundError,
    fun _ _ => .ok [mkNftEntry keyStrA mintStrA, mkNftEntry keyStrB mintStrB],
    fun _ => .ok [some ⟨.position overflowPosition⟩, some ⟨.position overflowPosition⟩]⟩

/-- A ledger whose enumeration returns two qualifying entries with the SAME
mint (two token accounts of one mint). -/
def dupMintLedger : RpcLedger :=
  ⟨fun _ => .ok 0, fun _ => .err accountNotFoundError,
    fun _ _ => .ok [mkNftEntry keyStrA mintStrA, mkNftEntry keyStrB mintStrA],
    fun _ => .ok []⟩

/-- A ledger whose enumeration returns two qualifying entries with distinct
mints. -/
def distinctMintLedger : RpcLedger :=
  ⟨fun _ => .ok 0, fun _ => .err accountNotFoundError,
    fun _ _ => .ok [mkNftEntry keyStrA mintStrA, mkNftEntry keyStrB mintStrB],
    fun _ => .ok []⟩

/-- A ledger mixing one qualifying entry with three skipped ones. -/
def c6Ledger : RpcLedger :=
  ⟨fun _ => .ok 0, fun _ => .err accountNotFoundError,
    fun _ _ => .ok [binaryEntry, mkNftEntry keyStrA mintStrA, notAccountEntry, wrongTagEntry],
    fun _ => .ok []⟩

/-- A ledger holding an ownership token only under the CLASSIC token program
(the query filtered to any other program sees nothing). -/
def classicHeavyLedger : RpcLedger :=
  ⟨fun _ => .ok 0, fun _ => .err accountNotFoundError,
    fun _ prog => if prog = TOKEN_PROGRAM_ID then
        .ok [mkNftEntry keyStrA mintStrA]
      else .ok [],
    fun _ => .ok []⟩

/-- The same ledger with the classic-program holdings removed. -/
def classicFreeLedger : RpcLedger :=
  ⟨fun _ => .ok 0, fun _ => .err accountNotFoundError, fun _ _ => .ok [],
    fun _ => .ok []⟩

/-- The kept enumeration entry derived from `keyStrA` / `mintStrA`. -/
def infoA : PositionNftTokenInfo :=
  ⟨pubkeyOfStr keyStrA, SPL_TOKEN_2022_ID,
    find_program_address [positionSeedBytes, (pubkeyOfStr mintStrA).bytes]
      RAYDIUM_V3_PROGRAM_KEY, pubkeyOfStr mintStrA, 1, 0⟩

/-- The kept enumeration entry derived from `keyStrB` / `mintStrB`. -/
def infoB : PositionNftTokenInfo :=
  ⟨pubkeyOfStr keyStrB, SPL_TOKEN_2022_ID,
    find_program_address [positionSeedBytes, (pubkeyOfStr mintStrB).bytes]
      RAYDIUM_V3_PROGRAM_KEY, pubkeyOfStr mintStrB, 1, 0⟩

/-! ### Helper lemmas -/

theorem U64_MOD_pos : 0 < U64_MOD := by norm_num [U64_MOD]

/-- A candidate ruled out by `candidateRuledOut` is dropped by the
`filter_map` step. -/
theorem survivorFilter_eq_none (pool_id : Pubkey) (p : Option Account)
    (h : candidateRuledOut pool_id p = true) : survivorFilter pool_id p = none := by
  cases p with
  | none => rfl
  | some rsp =>
    cases hd : deserialize_anchor_account rsp with
    | err e => simp [survivorFilter, hd]
    | ok position =>
      simp only [candidateRuledOut, hd] at h
      simp only [survivorFilter, hd]
      by_cases hp : position.pool_id = pool_id
      · rw [if_pos hp] at h; simp at h
      · rw [if_neg hp]

/-- When every fetched candidate is ruled out, the surviving list is empty. -/
theorem survivors_eq_nil (positions : List (Option Account)) (pool_id : Pubkey)
    (h : positions.all (candidateRuledOut pool_id) = true) :
    survivors positions pool_id = [] := by
  induction positions with
  | nil => rfl
  | cons p rest ih =>
    rw [List.all_cons, Bool.and_eq_true] at h
    unfold survivors at ih ⊢
    rw [List.filterMap_cons, survivorFilter_eq_none pool_id p h.1, ih h.2]

/-- The per-entry step of the enumeration agrees with the claimed filter on
every entry it does not panic on. -/
theorem processTokenAccount_ok (owner tokenProgram raydiumProgram : Pubkey)
    (ka : RpcKeyedAccount) (o : Option PositionNftTokenInfo)
    (h : processTokenAccount owner tokenProgram raydiumProgram ka = .ok o) :
    enumerationSpecFilter tokenProgram raydiumProgram ka = o := by
  cases hd : ka.data with
  | binary b =>
    simp only [processTokenAccount, hd] at h
    injection h with h
    simp only [enumerationSpecFilter, hd]
    exact h
  | json program parsed =>
    by_cases hp : program = "spl-token" ∨ program = "spl-token-2022"
    case neg =>
      simp only [processTokenAccount, hd, if_neg hp] at h
      injection h with h
      cases parsed with
      | notTokenAccount s =>
        simp only [enumerationSpecFilter, hd]
        exact h
      | tokenAccount uta =>
        simp only [enumerationSpecFilter, hd]
        rw [if_neg (fun hcnd => hp hcnd.1)]
        exact h
    case pos =>
      cases parsed with
      | notTokenAccount s =>
        simp only [processTokenAccount, hd, if_pos hp] at h
        injection h with h
        simp only [enumerationSpecFilter, hd]
        exact h
      | tokenAccount uta =>
        simp only [processTokenAccount, hd, if_pos hp] at h
        cases hm : Pubkey.fromStr uta.mint with
        | none => simp [hm] at h
        | some token =>
          simp only [hm] at h
          cases hk : Pubkey.fromStr ka.pubkey with
          | none => simp [hk] at h
          | some token_account =>
            simp only [hk] at h
            cases ha : parseU64 uta.tokenAmount.amount with
            | none => simp [ha] at h
            | some token_amount =>
              simp only [ha] at h
              cases hc : (match uta.closeAuthority with
                          | none => some owner
                          | some s => Pubkey.fromStr s) with
              | none => simp [hc] at h
              | some ca =>
                simp only [hc] at h
                by_cases hf : uta.tokenAmount.decimals = 0 ∧ token_amount = 1
                · rw [if_pos hf] at h
                  injection h with h
                  simp only [enumerationSpecFilter, hd]
                  rw [if_pos ⟨hp, hf.1, by rw [ha, hf.2]⟩]
                  simp only [hm, hk]
                  rw [← h, hf.1, hf.2]
                · rw [if_neg hf] at h
                  injection h with h
                  simp only [enumerationSpecFilter, hd]
                  have hcondF : ¬ ((program = "spl-token" ∨ program = "spl-token-2022")
                      ∧ uta.tokenAmount.decimals = 0
                      ∧ parseU64 uta.tokenAmount.amount = some 1) := by
                    intro hcnd
                    apply hf
                    refine ⟨hcnd.2.1, ?_⟩
                    have h1 := hcnd.2.2
                    rw [ha] at h1
                    exact Option.some.inj h1
                  rw [if_neg hcondF]
                  exact h

/-- A successful run of the enumeration loop keeps exactly the entries the
claimed filter keeps, in order. -/
theorem enumLoop_ok_eq_filterMap (owner tokenProgram raydiumProgram : Pubkey)
    (entries : List RpcKeyedAccount) (infos : List PositionNftTokenInfo)
    (h : enumLoop owner tokenProgram raydiumProgram entries = .ok infos) :
    infos = entries.filterMap (enumerationSpecFilter tokenProgram raydiumProgram) := by
  induction entries generalizing infos with
  | nil =>
    simp only [enumLoop] at h
    injection h with h
    rw [← h, List.filterMap_nil]
  | cons ka rest ih =>
    cases hs : processTokenAccount owner tokenProgram raydiumProgram ka with
    | panicked m => simp [enumLoop, hs] at h
    | err e => simp [enumLoop, hs] at h
    | ok o =>
      have hspec := processTokenAccount_ok owner tokenProgram raydiumProgram ka o hs
      cases o with
      | none =>
        simp only [enumLoop, hs] at h
        rw [List.filterMap_cons, hspec]
        exact ih infos h
      | some info =>
        simp only [enumLoop, hs] at h
        cases hr : enumLoop owner tokenProgram raydiumProgram rest with
        | ok l =>
          rw [hr] at h
          injection h with h
          rw [List.filterMap_cons, hspec, ← h, ih l hr]
        | err e => simp [hr] at h
        | panicked m => simp [hr] at h

/-- Every entry the claimed filter keeps carries the position address derived
from the fixed seed bytes and its own mint bytes. -/
theorem specFilter_position_eq (tokenProgram raydiumProgram : Pubkey)
    (ka : RpcKeyedAccount) (i : PositionNftTokenInfo)
    (h : enumerationSpecFilter tokenProgram raydiumProgram ka = some i) :
    i.position = find_program_address [positionSeedBytes, i.mint.bytes] raydiumProgram := by
  cases hd : ka.data with
  | binary b => simp [enumerationSpecFilter, hd] at h
  | json program parsed =>
    cases parsed with
    | notTokenAccount s => simp [enumerationSpecFilter, hd] at h
    | tokenAccount uta =>
      simp only [enumerationSpecFilter, hd] at h
      by_cases hc : (program = "spl-token" ∨ program = "spl-token-2022")
          ∧ uta.tokenAmount.decimals = 0
          ∧ parseU64 uta.tokenAmount.amount = some 1
      · rw [if_pos hc] at h
        cases hm : Pubkey.fromStr uta.mint with
        | none => simp [hm] at h
        | some token =>
          cases hk : Pubkey.fromStr ka.pubkey with
          | none => simp [hm, hk] at h
          | some token_account =>
            simp only [hm, hk] at h
            injection h with h
            rw [← h]
      · rw [if_neg hc] at h
        cases h

/-- The modelled program-derived-address scheme is injective in the mint for
a fixed seed prefix and program. -/
theorem pda_mint_injective (seed : List Nat) (program : Pubkey) :
    Function.Injective (fun m : Pubkey => find_program_address [seed, m.bytes] program) := by
  intro m1 m2 h
  simp only [find_program_address, Pubkey.mk.injEq, encodeSeeds, List.append_nil,
    List.append_assoc, List.cons_append, List.cons.injEq, List.length_cons,
    List.length_nil, List.append_cancel_left_eq, List.append_cancel_right_eq,
    true_and, and_true] at h
  cases m1 with
  | mk b1 =>
    cases m2 with
    | mk b2 =>
      rw [Pubkey.mk.injEq]
      tauto

/-- A math error at any surviving position makes the whole accumulation loop
fail. -/
theorem valuateLoop_err_of_mem (records : List PersonalPositionState)
    (p : PersonalPositionState) (hp : p ∈ records) (e : MathError)
    (he : deltasOfPosition p = .err e) :
    ∀ a0 a1, ∃ e2, valuateLoop records a0 a1 = .err e2 := by
  induction records with
  | nil => cases hp
  | cons q rest ih =>
    intro a0 a1
    cases hq : deltasOfPosition q with
    | err e2 => exact ⟨e2, by simp [valuateLoop, hq]⟩
    | ok d =>
      rcases List.mem_cons.mp hp with hcase | hcase
      · subst hcase
        rw [he] at hq
        cases hq
      · simp only [valuateLoop, hq]
        exact ih hcase ((a0 + d.1) % U64_MOD) ((a1 + d.2) % U64_MOD)

/-- A successful accumulation loop computes the modular sums of the
per-position deltas. -/
theorem valuateLoop_ok_eq (records : List PersonalPositionState) :
    ∀ a0 a1 b0 b1, a0 < U64_MOD → a1 < U64_MOD →
    valuateLoop records a0 a1 = .ok (b0, b1) →
    ∃ ds, deltaList records = some ds ∧
      b0 = (a0 + (ds.map Prod.fst).sum) % U64_MOD ∧
      b1 = (a1 + (ds.map Prod.snd).sum) % U64_MOD := by
  induction records with
  | nil =>
    intro a0 a1 b0 b1 ha0 ha1 h
    simp only [valuateLoop] at h
    injection h with h
    rw [Prod.mk.injEq] at h
    refine ⟨[], rfl, ?_, ?_⟩
    · rw [← h.1, List.map_nil, List.sum_nil, Nat.add_zero]
      exact (Nat.mod_eq_of_lt ha0).symm
    · rw [← h.2, List.map_nil, List.sum_nil, Nat.add_zero]
      exact (Nat.mod_eq_of_lt ha1).symm
  | cons q rest ih =>
    intro a0 a1 b0 b1 ha0 ha1 h
    cases hq : deltasOfPosition q with
    | err e => simp [valuateLoop, hq] at h
    | ok d =>
      simp only [valuateLoop, hq] at h
      obtain ⟨ds, hds, hb0, hb1⟩ :=
        ih _ _ _ _ (Nat.mod_lt _ U64_MOD_pos) (Nat.mod_lt _ U64_MOD_pos) h
      refine ⟨d :: ds, ?_, ?_, ?_⟩
      · simp [deltaList, hq, hds]
      · rw [hb0, Nat.mod_add_mod, List.map_cons, List.sum_cons, ← Nat.add_assoc]
      · rw [hb1, Nat.mod_add_mod, List.map_cons, List.sum_cons, ← Nat.add_assoc]

/-- A tick outside the representable range fails the per-position math. -/
theorem deltas_err_of_tick_out (p : PersonalPositionState)
    (h : p.tick_lower_index < MIN_TICK ∨ MAX_TICK < p.tick_lower_index ∨
         p.tick_upper_index < MIN_TICK ∨ MAX_TICK < p.tick_upper_index) :
    ∃ e, deltasOfPosition p = .err e := by
  rcases h with h | h | h | h
  · exact ⟨.tickOutOfRange, by simp [deltasOfPosition, get_sqrt_price_at_tick, h]⟩
  · exact ⟨.tickOutOfRange, by simp [deltasOfPosition, get_sqrt_price_at_tick, h]⟩
  · cases hl : get_sqrt_price_at_tick p.tick_lower_index with
    | err e => exact ⟨e, by simp [deltasOfPosition, hl]⟩
    | ok v =>
      have hu : get_sqrt_price_at_tick p.tick_upper_index = .err .tickOutOfRange := by
        simp [get_sqrt_price_at_tick, h]
      exact ⟨.tickOutOfRange, by simp [deltasOfPosition, hl, hu]⟩
  · cases hl : get_sqrt_price_at_tick p.tick_lower_index with
    | err e => exact ⟨e, by simp [deltasOfPosition, hl]⟩
    | ok v =>
      have hu : get_sqrt_price_at_tick p.tick_upper_index = .err .tickOutOfRange := by
        simp [get_sqrt_price_at_tick, h]
      exact ⟨.tickOutOfRange, by simp [deltasOfPosition, hl, hu]⟩

/-- Under a successful enumeration and batch fetch, `raydium_pool_position`
is the valuation loop over the surviving records. -/
theorem raydium_pool_position_eq_loop (rpc : RpcLedger) (w pool_id : Pubkey)
    (infos : List PositionNftTokenInfo) (fetched : List (Option Account))
    (hE : get_nft_account_and_position_by_owner rpc w SPL_TOKEN_2022_ID
        RAYDIUM_V3_PROGRAM_KEY = .ok infos)
    (hF : rpc.getMultipleAccounts (infos.map (fun i => i.position)) = .ok fetched) :
    raydium_pool_position rpc w pool_id =
      match valuateLoop (survivors fetched pool_id) 0 0 with
      | .err e => .err (.math e)
      | .ok totals => .ok totals := by
  simp only [raydium_pool_position, hE, hF]

/-! ### Claim theorems -/

/-- Claim C9 (confirmed): the CLI exits with code 1 (usage message) when the
positional wallet-address argument is missing, and exits with code 1 (error
message) when the supplied address string fails to parse; in the
invalid-address case the outcome is independent of the remote service, so no
RPC call is attempted before exiting. -/
theorem claimC9_cli_exits (args : List String) (rpc rpc2 : RpcLedger) :
    (args.length < 2 →
      mainRun args rpc = .usageExit ∧ (mainRun args rpc).exitCode = 1)
    ∧ (2 ≤ args.length → Pubkey.fromStr (args.getD 1 "") = none →
      mainRun args rpc = .badAddressExit ∧ (mainRun args rpc).exitCode = 1 ∧
        mainRun args rpc = mainRun args rpc2) := by
  constructor
  · intro h
    have hu : mainRun args rpc = .usageExit := by simp [mainRun, h]
    exact ⟨hu, by rw [hu]; rfl⟩
  · intro h2 hparse
    have key : ∀ r : RpcLedger, mainRun args r = .badAddressExit := by
      intro r
      unfold mainRun
      rw [if_neg (Nat.not_lt.mpr h2)]
      simp only [hparse]
    exact ⟨key rpc, by rw [key rpc]; rfl, by rw [key rpc, key rpc2]⟩

/-- Witness for C9 at concrete inputs: a missing argument, and the spec's
"not-a-real-address" string with two arbitrary remote services. -/
theorem claimC9_witness :
    (mainRun ["balance-fetcher"] rpcDownLedger = .usageExit ∧
      (mainRun ["balance-fetcher"] rpcDownLedger).exitCode = 1) ∧
    (mainRun ["balance-fetcher", "not-a-real-address"] rpcDownLedger = .badAddressExit ∧
      (mainRun ["balance-fetcher", "not-a-real-address"] rpcDownLedger).exitCode = 1 ∧
      mainRun ["balance-fetcher", "not-a-real-address"] rpcDownLedger =
        mainRun ["balance-fetcher", "not-a-real-address"] emptyLedger) :=
  ⟨(claimC9_cli_exits ["balance-fetcher"] rpcDownLedger emptyLedger).1 (by decide),
    (claimC9_cli_exits ["balance-fetcher", "not-a-real-address"] rpcDownLedger
      emptyLedger).2 (by decide) (by decide)⟩

/-- Claim C10 (confirmed): `raydium_pool_position` passes the token-2022
program as the single filter of the ledger enumeration, so its result
depends only on the token-2022 token-accounts query (and the batch fetch);
holdings under any other program — in particular the classic token
program — are never enumerated or counted. -/
theorem claimC10_token2022_only (rpcA rpcB : RpcLedger) (w pool_id : Pubkey)
    (hT : rpcA.getTokenAccountsByOwner w SPL_TOKEN_2022_ID =
      rpcB.getTokenAccountsByOwner w SPL_TOKEN_2022_ID)
    (hM : ∀ addrs, rpcA.getMultipleAccounts addrs = rpcB.getMultipleAccounts addrs) :
    raydium_pool_position rpcA w pool_id = raydium_pool_position rpcB w pool_id := by
  simp only [raydium_pool_position, get_nft_account_and_position_by_owner, hT, hM]

/-- Witness for C10: a ledger holding an ownership token only under the
classic token program values positions exactly like the ledger with those
holdings removed. -/
theorem claimC10_witness :
    raydium_pool_position classicHeavyLedger cOwner SOL_USDC_1BP_POOL_KEY =
      raydium_pool_position classicFreeLedger cOwner SOL_USDC_1BP_POOL_KEY :=
  claimC10_token2022_only classicHeavyLedger classicFreeLedger cOwner
    SOL_USDC_1BP_POOL_KEY (by decide) (fun _ => rfl)

/-- Claim C4 (confirmed): `raydium_pool_position` returns `(0, 0)` — not an
error — whenever the wallet holds no position in the given pool: when the
enumeration yields no candidates, and when every fetched candidate is
absent, fails to decode, or records a different pool. -/
theorem claimC4_no_position_zero (rpc : RpcLedger) (w pool_id : Pubkey)
    (infos : List PositionNftTokenInfo) (fetched : List (Option Account))
    (hE : get_nft_account_and_position_by_owner rpc w SPL_TOKEN_2022_ID
      RAYDIUM_V3_PROGRAM_KEY = .ok infos)
    (hF : rpc.getMultipleAccounts (infos.map (fun i => i.position)) = .ok fetched)
    (hAll : fetched.all (candidateRuledOut pool_id) = true) :
    raydium_pool_position rpc w pool_id = .ok (0, 0) := by
  rw [raydium_pool_position_eq_loop rpc w pool_id infos fetched hE hF,
    survivors_eq_nil fetched pool_id hAll]
  rfl

/-- Witness for C4: one ownership token whose derived position account is
absent from the batch fetch still values to `(0, 0)`. -/
theorem claimC4_witness :
    raydium_pool_position c4Ledger cOwner SOL_USDC_1BP_POOL_KEY = .ok (0, 0) :=
  claimC4_no_position_zero c4Ledger cOwner SOL_USDC_1BP_POOL_KEY [infoA] [none]
    (by decide) (by decide) (by decide)

/-- Counterexample to claim C1 as stated: a decoded token-account entry whose
mint string fails to parse makes the whole enumeration abort with a panic; it
is not skipped and logged. -/
theorem claimC1_counterexample :
    get_nft_account_and_position_by_owner badMintLedger cOwner SPL_TOKEN_2022_ID
      RAYDIUM_V3_PROGRAM_KEY = .panicked "Invalid mint" ∧
    (RRes.panicked "Invalid mint" : RRes (List PositionNftTokenInfo)) ≠ .ok [] := by
  exact ⟨by decide, by decide⟩

/-- Claim C1 (amended): entries whose account data is not parsed JSON, or
whose JSON payload does not decode as a token account, or whose program tag
is neither known token program, are skipped (without any logging) and the
enumeration continues; but an entry that decodes as a token account whose
mint string fails to parse aborts the entire enumeration with a panic. -/
theorem claimC1_amended_skip_or_panic (owner tokenProgram raydiumProgram : Pubkey)
    (ka : RpcKeyedAccount) (rest : List RpcKeyedAccount) :
    (processTokenAccount owner tokenProgram raydiumProgram ka = .ok none →
      enumLoop owner tokenProgram raydiumProgram (ka :: rest) =
        enumLoop owner tokenProgram raydiumProgram rest)
    ∧ (∀ b, ka.data = .binary b →
      processTokenAccount owner tokenProgram raydiumProgram ka = .ok none)
    ∧ (∀ program s, ka.data = .json program (.notTokenAccount s) →
      processTokenAccount owner tokenProgram raydiumProgram ka = .ok none)
    ∧ (∀ program parsed, ka.data = .json program parsed →
      ¬ (program = "spl-token" ∨ program = "spl-token-2022") →
      processTokenAccount owner tokenProgram raydiumProgram ka = .ok none)
    ∧ (∀ program uta, ka.data = .json program (.tokenAccount uta) →
      (program = "spl-token" ∨ program = "spl-token-2022") →
      Pubkey.fromStr uta.mint = none →
      enumLoop owner tokenProgram raydiumProgram (ka :: rest) =
        .panicked "Invalid mint") := by
  refine ⟨?_, ?_, ?_, ?_, ?_⟩
  · intro h
    simp only [enumLoop, h]
  · intro b hd
    simp only [processTokenAccount, hd]
  · intro program s hd
    simp only [processTokenAccount, hd]
    by_cases hp : program = "spl-token" ∨ program = "spl-token-2022"
    · rw [if_pos hp]
    · rw [if_neg hp]
  · intro program parsed hd hp
    simp only [processTokenAccount, hd]
    rw [if_neg hp]
  · intro program uta hd hp hm
    have hpanic : processTokenAccount owner tokenProgram raydiumProgram ka =
        .panicked "Invalid mint" := by
      simp [processTokenAccount, hd, hp, hm]
    simp only [enumLoop, hpanic]

/-- Witness for C1 (amended): a binary-data entry is skipped and enumeration
continues; a bad-mint entry aborts the enumeration with a panic. -/
theorem claimC1_witness :
    processTokenAccount cOwner SPL_TOKEN_2022_ID RAYDIUM_V3_PROGRAM_KEY binaryEntry
      = .ok none ∧
    enumLoop cOwner SPL_TOKEN_2022_ID RAYDIUM_V3_PROGRAM_KEY [binaryEntry] =
      enumLoop cOwner SPL_TOKEN_2022_ID RAYDIUM_V3_PROGRAM_KEY [] ∧
    enumLoop cOwner SPL_TOKEN_2022_ID RAYDIUM_V3_PROGRAM_KEY [badMintEntry] =
      .panicked "Invalid mint" :=
  ⟨(claimC1_amended_skip_or_panic cOwner SPL_TOKEN_2022_ID RAYDIUM_V3_PROGRAM_KEY
      binaryEntry []).2.1 [1, 2, 3] (by decide),
    (claimC1_amended_skip_or_panic cOwner SPL_TOKEN_2022_ID RAYDIUM_V3_PROGRAM_KEY
      binaryEntry []).1 (by decide),
    (claimC1_amended_skip_or_panic cOwner SPL_TOKEN_2022_ID RAYDIUM_V3_PROGRAM_KEY
      badMintEntry []).2.2.2.2 "spl-token-2022" ⟨"!!!", .initialized, ⟨"1", 0⟩, none⟩
      (by decide) (by decide) (by decide)⟩

/-- Counterexample to claim C2 as stated: an rpc response error that is not
account-not-found (here "Method not found") is also suppressed and mapped to
the zero result rather than propagated. -/
theorem claimC2_counterexample :
    balance_spl_token c2Ledger cOwner WSOL_MINT_KEY = .ok ⟨0, 0⟩ ∧
    otherResponseError ≠ accountNotFoundError ∧
    balance_spl_token c2Ledger cOwner WSOL_MINT_KEY ≠
      .err (.client otherResponseError) := by
  exact ⟨by decide, by decide, by decide⟩

/-- Claim C2 (amended): the class of errors `balance_spl_token` suppresses
into the zero result (amount 0, decimals 0) is the whole rpc-response-error
kind — which includes account-not-found but is not limited to it; every
error of any other kind is propagated to the caller unmodified. -/
theorem claimC2_amended_suppression (rpc : RpcLedger) (w mint : Pubkey)
    (e : ClientErrorKind)
    (hErr : rpc.getTokenAccountBalance (get_associated_token_address w mint) = .err e) :
    (isRpcResponseErrorKind e = true → balance_spl_token rpc w mint = .ok ⟨0, 0⟩)
    ∧ (isRpcResponseErrorKind e = false →
      balance_spl_token rpc w mint = .err (.client e)) := by
  constructor
  · intro hk
    cases e with
    | io s => simp [isRpcResponseErrorKind] at hk
    | custom s => simp [isRpcResponseErrorKind] at hk
    | rpcError re =>
      cases re with
      | rpcResponseError code msg => simp [balance_spl_token, hErr]
      | rpcRequestError s => simp [isRpcResponseErrorKind] at hk
      | parseError s => simp [isRpcResponseErrorKind] at hk
      | forUser s => simp [isRpcResponseErrorKind] at hk
  · intro hk
    cases e with
    | io s => simp [balance_spl_token, hErr]
    | custom s => simp [balance_spl_token, hErr]
    | rpcError re =>
      cases re with
      | rpcResponseError code msg => simp [isRpcResponseErrorKind] at hk
      | rpcRequestError s => simp [balance_spl_token, hErr]
      | parseError s => simp [balance_spl_token, hErr]
      | forUser s => simp [balance_spl_token, hErr]

/-- Witness for C2 (amended) at a transport (io) error: it is not of the
suppressed kind and propagates unmodified. -/
theorem claimC2_witness :
    (isRpcResponseErrorKind ioErr = true →
      balance_spl_token rpcDownLedger cOwner WSOL_MINT_KEY = .ok ⟨0, 0⟩) ∧
    (isRpcResponseErrorKind ioErr = false →
      balance_spl_token rpcDownLedger cOwner WSOL_MINT_KEY = .err (.client ioErr)) :=
  claimC2_amended_suppression rpcDownLedger cOwner WSOL_MINT_KEY ioErr (by decide)

/-- Counterexample to claim C3 as stated: with the largest representable
native balance and a wrapped balance of 1, the u64 unified sum wraps around
and the reported value 0 differs from the mathematical sum. -/
theorem claimC3_counterexample :
    balance_sol maxSolLedger cOwner = .ok (U64_MOD - 1) ∧
    balance_spl_token maxSolLedger cOwner WSOL_MINT_KEY = .ok ⟨1, 9⟩ ∧
    balance_sol_unified maxSolLedger cOwner = .ok 0 ∧
    (U64_MOD - 1) + 1 ≠ 0 := by
  exact ⟨by decide, by decide, by decide, by decide⟩

/-- Claim C3 (amended): whenever the native-balance and wrapped-token-balance
lookups succeed, the unified balance is their sum reduced modulo 2^64 (the
u64 addition of the source); in particular it equals the mathematical sum
whenever that sum is representable — including the case of an absent
wrapped-token account, where the second term is 0. -/
theorem claimC3_amended_unified_sum (rpc : RpcLedger) (w : Pubkey)
    (sol : Nat) (t : SPLToken)
    (h1 : balance_sol rpc w = .ok sol)
    (h2 : balance_spl_token rpc w WSOL_MINT_KEY = .ok t) :
    balance_sol_unified rpc w = .ok ((sol + t.amount) % U64_MOD) ∧
    (sol + t.amount < U64_MOD →
      balance_sol_unified rpc w = .ok (sol + t.amount)) := by
  have hw : balance_wsol rpc w = .ok t.amount := by
    simp only [balance_wsol, h2]
  have hu : balance_sol_unified rpc w = .ok ((sol + t.amount) % U64_MOD) := by
    simp only [balance_sol_unified, h1, hw]
  exact ⟨hu, fun hlt => by rw [hu, Nat.mod_eq_of_lt hlt]⟩

/-- Witness for C3 (amended) on a ledger where the wrapped-token account does
not exist: the suppressed not-found error makes the second term 0 and the
unified balance equals the native balance. -/
theorem claimC3_witness :
    balance_sol_unified notFoundLedger cOwner = .ok ((5 + 0) % U64_MOD) ∧
    (5 + 0 < U64_MOD →
      balance_sol_unified notFoundLedger cOwner = .ok (5 + 0)) :=
  claimC3_amended_unified_sum notFoundLedger cOwner 5 ⟨0, 0⟩ (by decide) (by decide)

/-- Counterexample to claim C5 as stated: on this ledger the two surviving
positions of the target pool each contribute `2 ^ 63` to the token-0 total;
the u64 accumulation overflows and `raydium_pool_position` silently returns
the wrapped total 0 instead of surfacing an error. -/
theorem claimC5_counterexample :
    raydium_pool_position overflowLedger cOwner SOL_USDC_1BP_POOL_KEY = .ok (0, 2) ∧
    deltasOfPosition overflowPosition = .ok (2 ^ 63, 1) ∧
    survivors [some ⟨.position overflowPosition⟩, some ⟨.position overflowPosition⟩]
      SOL_USDC_1BP_POOL_KEY = [overflowPosition, overflowPosition] ∧
    ¬ (2 ^ 63 + 2 ^ 63 < U64_MOD) ∧ (2 ^ 63 + 2 ^ 63) % U64_MOD = 0 := by
  exact ⟨by decide, by decide, by decide, by decide, by decide⟩

/-- Claim C5 (amended): under a successful enumeration and batch fetch, a
tick outside the representable range of the tick-to-price mapping, or an
error (overflow) inside the per-position amount formulas, is surfaced to the
caller of `raydium_pool_position` as an error; the accumulation of the
per-position amounts into the totals, however, is unchecked u64 addition: a
successful result is the modular (mod 2^64) sum of the per-position deltas,
with no overflow detection. -/
theorem claimC5_amended_math_errors (rpc : RpcLedger) (w pool_id : Pubkey)
    (infos : List PositionNftTokenInfo) (fetched : List (Option Account))
    (hE : get_nft_account_and_position_by_owner rpc w SPL_TOKEN_2022_ID
      RAYDIUM_V3_PROGRAM_KEY = .ok infos)
    (hF : rpc.getMultipleAccounts (infos.map (fun i => i.position)) = .ok fetched) :
    ((∃ p ∈ survivors fetched pool_id,
        (p.tick_lower_index < MIN_TICK ∨ MAX_TICK < p.tick_lower_index ∨
          p.tick_upper_index < MIN_TICK ∨ MAX_TICK < p.tick_upper_index) ∨
        (∃ e, deltasOfPosition p = .err e)) →
      ∃ e2, raydium_pool_position rpc w pool_id = .err (.math e2))
    ∧ (∀ b0 b1, raydium_pool_position rpc w pool_id = .ok (b0, b1) →
      ∃ ds, deltaList (survivors fetched pool_id) = some ds ∧
        b0 = (ds.map Prod.fst).sum % U64_MOD ∧
        b1 = (ds.map Prod.snd).sum % U64_MOD) := by
  have hstruct := raydium_pool_position_eq_loop rpc w pool_id infos fetched hE hF
  constructor
  · rintro ⟨p, hpmem, hbad⟩
    have herr : ∃ e, deltasOfPosition p = .err e := by
      rcases hbad with hbad | hbad
      · exact deltas_err_of_tick_out p hbad
      · exact hbad
    obtain ⟨e, he⟩ := herr
    obtain ⟨e2, he2⟩ := valuateLoop_err_of_mem _ p hpmem e he 0 0
    exact ⟨e2, by rw [hstruct]; simp only [he2]⟩
  · intro b0 b1 hok
    rw [hstruct] at hok
    cases hv : valuateLoop (survivors fetched pool_id) 0 0 with
    | err e =>
      simp only [hv] at hok
      cases hok
    | ok t =>
      simp only [hv] at hok
      injection hok with hok
      obtain ⟨ds, hds, h0, h1⟩ := valuateLoop_ok_eq _ 0 0 b0 b1 U64_MOD_pos U64_MOD_pos
        (by rw [hv, hok])
      exact ⟨ds, hds, by simpa using h0, by simpa using h1⟩

/-- Witness for C5 (amended) on the empty ledger (no candidates, so the
surviving list is empty and the successful total is the empty modular sum). -/
theorem claimC5_witness :
    ((∃ p ∈ survivors ([] : List (Option Account)) SOL_USDC_1BP_POOL_KEY,
        (p.tick_lower_index < MIN_TICK ∨ MAX_TICK < p.tick_lower_index ∨
          p.tick_upper_index < MIN_TICK ∨ MAX_TICK < p.tick_upper_index) ∨
        (∃ e, deltasOfPosition p = .err e)) →
      ∃ e2, raydium_pool_position emptyLedger cOwner SOL_USDC_1BP_POOL_KEY =
        .err (.math e2))
    ∧ (∀ b0 b1,
      raydium_pool_position emptyLedger cOwner SOL_USDC_1BP_POOL_KEY = .ok (b0, b1) →
      ∃ ds, deltaList (survivors ([] : List (Option Account)) SOL_USDC_1BP_POOL_KEY)
          = some ds ∧
        b0 = (ds.map Prod.fst).sum % U64_MOD ∧
        b1 = (ds.map Prod.snd).sum % U64_MOD) :=
  claimC5_amended_math_errors emptyLedger cOwner SOL_USDC_1BP_POOL_KEY [] []
    (by decide) (by decide)

/-- Claim C6 (confirmed): a successful enumeration keeps exactly the decoded
token-account entries whose program tag is one of the two known token
programs and whose decimals equal 0 and amount equals 1, and derives each
position address from the fixed seed literal's bytes concatenated with the
entry's mint bytes, scoped to the exchange program. -/
theorem claimC6_enumeration_filter (rpc : RpcLedger)
    (owner tokenProgram raydiumProgram : Pubkey)
    (entries : List RpcKeyedAccount) (infos : List PositionNftTokenInfo)
    (hT : rpc.getTokenAccountsByOwner owner tokenProgram = .ok entries)
    (hOk : get_nft_account_and_position_by_owner rpc owner tokenProgram
      raydiumProgram = .ok infos) :
    infos = entries.filterMap (enumerationSpecFilter tokenProgram raydiumProgram) := by
  simp only [get_nft_account_and_position_by_owner, hT] at hOk
  exact enumLoop_ok_eq_filterMap owner tokenProgram raydiumProgram entries infos hOk

/-- Witness for C6: of four entries (binary data, a qualifying ownership
token, a non-token-account payload, a wrong program tag) exactly the
qualifying one is kept, with the seed-and-mint derived address. -/
theorem claimC6_witness :
    [infoA] = ([binaryEntry, mkNftEntry keyStrA mintStrA, notAccountEntry,
      wrongTagEntry]).filterMap
      (enumerationSpecFilter SPL_TOKEN_2022_ID RAYDIUM_V3_PROGRAM_KEY) :=
  claimC6_enumeration_filter c6Ledger cOwner SPL_TOKEN_2022_ID RAYDIUM_V3_PROGRAM_KEY
    [binaryEntry, mkNftEntry keyStrA mintStrA, notAccountEntry, wrongTagEntry]
    [infoA] (by decide) (by decide)

/-- Counterexample to claim C7 as stated: two qualifying entries sharing one
mint produce the same derived position address twice, so the returned list
has a duplicate. -/
theorem claimC7_counterexample :
    (positionsOf (get_nft_account_and_position_by_owner dupMintLedger cOwner
      SPL_TOKEN_2022_ID RAYDIUM_V3_PROGRAM_KEY)).length = 2 ∧
    ¬ (positionsOf (get_nft_account_and_position_by_owner dupMintLedger cOwner
      SPL_TOKEN_2022_ID RAYDIUM_V3_PROGRAM_KEY)).Nodup := by
  exact ⟨by decide, by decide⟩

/-- Claim C7 (amended): the mint-to-address derivation is injective, so a
successful enumeration whose kept entries carry pairwise-distinct mints
yields pairwise-distinct derived position addresses; duplicates arise
exactly when one mint appears in several qualifying token accounts, since
the code does not deduplicate. -/
theorem claimC7_nodup_of_distinct_mints (rpc : RpcLedger)
    (owner tokenProgram raydiumProgram : Pubkey) (infos : List PositionNftTokenInfo)
    (hOk : get_nft_account_and_position_by_owner rpc owner tokenProgram
      raydiumProgram = .ok infos)
    (hMints : (infos.map (fun i => i.mint)).Nodup) :
    (infos.map (fun i => i.position)).Nodup := by
  cases hT : rpc.getTokenAccountsByOwner owner tokenProgram with
  | err e => simp [get_nft_account_and_position_by_owner, hT] at hOk
  | ok entries =>
    simp only [get_nft_account_and_position_by_owner, hT] at hOk
    have hchar := enumLoop_ok_eq_filterMap owner tokenProgram raydiumProgram entries
      infos hOk
    have hpos : ∀ i ∈ infos, i.position =
        find_program_address [positionSeedBytes, i.mint.bytes] raydiumProgram := by
      intro i hi
      rw [hchar] at hi
      obtain ⟨ka, hka, hf⟩ := List.mem_filterMap.mp hi
      exact specFilter_position_eq tokenProgram raydiumProgram ka i hf
    have hmap : infos.map (fun i => i.position) =
        (infos.map (fun i => i.mint)).map
          (fun m => find_program_address [positionSeedBytes, m.bytes] raydiumProgram) := by
      rw [List.map_map]
      exact List.map_congr_left hpos
    rw [hmap]
    exact hMints.map (pda_mint_injective positionSeedBytes raydiumProgram)

/-- Witness for C7 (amended): two entries with distinct mints give a
duplicate-free derived-address list. -/
theorem claimC7_witness :
    ([infoA, infoB].map (fun i => i.position)).Nodup :=
  claimC7_nodup_of_distinct_mints distinctMintLedger cOwner SPL_TOKEN_2022_ID
    RAYDIUM_V3_PROGRAM_KEY [infoA, infoB] (by decide) (by decide)

/-- Counterexample to claim C8's "in particular" part: when the
get-token-accounts-by-owner query fails with a transport error, the
enumerator panics (aborts the process) instead of returning the error to its
caller. -/
theorem claimC8_counterexample :
    rpcDownLedger.getTokenAccountsByOwner cOwner SPL_TOKEN_2022_ID = .err ioErr ∧
    get_nft_account_and_position_by_owner rpcDownLedger cOwner SPL_TOKEN_2022_ID
      RAYDIUM_V3_PROGRAM_KEY = .panicked "called unwrap on an Err value" ∧
    get_nft_account_and_position_by_owner rpcDownLedger cOwner SPL_TOKEN_2022_ID
      RAYDIUM_V3_PROGRAM_KEY ≠ .err (.client ioErr) := by
  exact ⟨by decide, by decide, by decide⟩

/-- Claim C8 (amended): transport errors from the remote service propagate
verbatim through the result chain to `main`, which exits non-zero — shown
for the balance query and for the batch fetch inside the valuator — while a
failure of the get-token-accounts-by-owner query aborts the enumerator with
a panic (also a non-zero process exit) instead of reaching its caller as an
error value. -/
theorem claimC8_amended_propagation (rpc : RpcLedger) (e : ClientErrorKind) :
    (∀ owner tokenProgram raydiumProgram : Pubkey,
      rpc.getTokenAccountsByOwner owner tokenProgram = .err e →
      get_nft_account_and_position_by_owner rpc owner tokenProgram raydiumProgram =
        .panicked "called unwrap on an Err value")
    ∧ (∀ args : List String, ∀ addr : Pubkey, ¬ args.length < 2 →
      Pubkey.fromStr (args.getD 1 "") = some addr →
      rpc.getBalance addr = .err e →
      mainRun args rpc = .runtimeErr (.client e) ∧
        (MainResult.runtimeErr (.client e)).exitCode ≠ 0)
    ∧ (∀ w pool_id : Pubkey, ∀ infos : List PositionNftTokenInfo,
      get_nft_account_and_position_by_owner rpc w SPL_TOKEN_2022_ID
        RAYDIUM_V3_PROGRAM_KEY = .ok infos →
      rpc.getMultipleAccounts (infos.map (fun i => i.position)) = .err e →
      raydium_pool_position rpc w pool_id = .err (.client e)) := by
  refine ⟨?_, ?_, ?_⟩
  · intro owner tp rp h
    simp only [get_nft_account_and_position_by_owner, h]
  · intro args addr hlen hparse hbal
    constructor
    · unfold mainRun
      rw [if_neg hlen]
      simp only [hparse, balance_sol, hbal]
    · simp [MainResult.exitCode]
  · intro w pool_id infos hE hM
    simp only [raydium_pool_position, hE, hM]

/-- Witness for C8 (amended): a dead remote service makes `main` exit with
the propagated transport error. -/
theorem claimC8_witness :
    mainRun ["balance-fetcher", goodAddrStr] rpcDownLedger =
      .runtimeErr (.client ioErr) ∧
    (MainResult.runtimeErr (.client ioErr)).exitCode ≠ 0 :=
  (claimC8_amended_propagation rpcDownLedger ioErr).2.1
    ["balance-fetcher", goodAddrStr] (pubkeyOfStr goodAddrStr)
    (by decide) (by decide) (by decide)
